import Mathlib

/-!
Shallow embedding of the BLerrors library (Go package `blerrors`).

Sources embedded here:
  * the type declarations (ErrorCode constants, AppError, ErrorResponse,
    SuccessResponse) with their JSON tags,
  * the error-record constructor and builder methods together with the
    stack-capture and module-inference helpers (getStackTrace,
    getCurrentModule, isSystemFrame, extractModuleName),
  * src/http.go: WriteErrorResponse, WriteSuccessResponse,
    getHTTPStatusCode, ErrorRecoveryMiddleware, RequestIDMiddleware,
    GetRequestID.

Modelling conventions.  Go interface values that flow into the JSON
encoder are modelled by `Payload`: either a JSON-encodable tree or an
`unencodable` value (func, chan, ...) on which `json.Marshal` errors.
`time.Now` and `runtime.Callers` are ambient effects; they are passed
explicitly through an `Env` record (clock readings and the call-stack
frames sitting above the record-construction frame).  An `http.ResponseWriter`
is modelled by `Resp`: a mutable header map plus the committed
status/header snapshot (Go commits the headers at the first `WriteHeader`;
later `WriteHeader` calls and later header mutations do not reach the
wire) and the ordered list of body writes.  A handler either returns
normally or panics, leaving the response it has written so far and the
`%v` rendering of the panic value.

The repository sources are mutually inconsistent: the AppError struct
declaration carries exactly the seven JSON-tagged fields, while the
constructor in the same package also assigns HumanReadableTime, Priority,
ErrorCode, ErrorType and UserID, and src/http.go chains builder methods
IsCritical, IsSystemError, WithErrorCode and WithUserID that are declared
nowhere under src/.  The embedding keeps the seven tagged fields as the
wire format (per the struct declaration and spec section 6) and carries the
five extra constructor fields as plain, unserialized fields; the four
missing builder methods are modelled from the spec as plain field
overwrites (see their doc comments).
-/

namespace BLerrors

/-- A JSON value, as produced by encoding/json.  Payloads this library
serializes never use JSON null (omitempty drops empty optional fields
instead), so no null constructor is modelled. -/
inductive Json where
  | bool (b : Bool)
  | num (n : Int)
  | str (s : String)
  | arr (xs : List Json)
  | obj (fields : List (String × Json))

/-- A Go interface value as seen by the JSON encoder: either a value that
marshals to a JSON tree, or one that json.Marshal rejects (func, chan,
complex, cyclic data, ...). -/
inductive Payload where
  | json (j : Json)
  | unencodable

/-- ErrorCode is a string type in the source. -/
abbrev ErrorCode := String

def ErrCodeNotFound : ErrorCode := "NOT_FOUND"
def ErrCodeValidation : ErrorCode := "VALIDATION_ERROR"
def ErrCodeInternal : ErrorCode := "INTERNAL_ERROR"
def ErrCodeUnauthorized : ErrorCode := "UNAUTHORIZED"
def ErrCodeForbidden : ErrorCode := "FORBIDDEN"
def ErrCodeBadRequest : ErrorCode := "BAD_REQUEST"
def ErrCodeConflict : ErrorCode := "CONFLICT"
def ErrCodeTooManyRequests : ErrorCode := "TOO_MANY_REQUESTS"
def ErrCodeServiceUnavailable : ErrorCode := "SERVICE_UNAVAILABLE"

/-- The AppError record.  The first seven fields are the JSON-tagged
fields of the struct declaration (tags: code, message, timestamp,
module+omitempty, trace+omitempty, details+omitempty,
request_id+omitempty).  A nil Go slice and a nil interface are modelled
as the empty list and none.  The last five fields are the extra fields
assigned by the constructor in the package source; they carry no JSON tag
in the wire contract (spec section 6). -/
structure AppError where
  Code : ErrorCode
  Message : String
  Timestamp : Int
  Module : String
  Trace : List String
  Details : Option Payload
  RequestID : String
  HumanReadableTime : String
  Priority : String
  ErrorCode : String
  ErrorType : String
  UserID : String

/-- One call-stack frame as surfaced by runtime.CallersFrames. -/
structure Frame where
  file : String
  line : Nat
  function : String
deriving DecidableEq

/-- The zero Frame value that the Go frame iterator returns once the
frame list is exhausted. -/
def zeroFrame : Frame := { file := "", line := 0, function := "" }

/-- The deny-list of function-name prefixes treated as system frames
(isSystemFrame in the source). -/
def systemPrefixes : List String :=
  ["runtime.", "reflect.", "blerrors.", "net/http.", "github.com/gorilla/mux."]

/-- isSystemFrame: true when the function name strictly extends one of
the deny-listed name prefixes (the source requires
len(function) > len(p) before comparing function[:len(p)] with p). -/
def isSystemFrame (function : String) : Bool :=
  systemPrefixes.any (fun p =>
    decide (p.length < function.length) && (function.take p.length == p))

/-- Rendering of one retained frame: file colon line space function
(fmt.Sprintf in getStackTrace). -/
def renderFrame (f : Frame) : String :=
  f.file ++ ":" ++ toString f.line ++ " " ++ f.function

/-- The getStackTrace loop.  Each iteration asks the frame iterator for
the next frame: on a nonempty list it yields the head, with more=true
exactly when further frames remain; on an exhausted list it yields the
zero frame with more=false.  The body appends the rendered frame unless
it is a system frame, then breaks when more is false or ten entries have
been collected. -/
def getStackTraceLoop : List Frame → List String → List String
  | [], trace =>
      if isSystemFrame zeroFrame.function then trace
      else trace ++ [renderFrame zeroFrame]
  | [f], trace =>
      if isSystemFrame f.function then trace else trace ++ [renderFrame f]
  | f :: g :: rest, trace =>
      let trace' := if isSystemFrame f.function then trace
                    else trace ++ [renderFrame f]
      if 10 ≤ trace'.length then trace' else getStackTraceLoop (g :: rest) trace'

/-- getStackTrace: runtime.Callers(3, pc) with a buffer of 15 delivers at
most the first fifteen frames above the record-construction machinery;
the loop filters and renders them. -/
def getStackTrace (stack : List Frame) : List String :=
  getStackTraceLoop (stack.take 15) []

/-- The character loop of extractModuleName: split the function name on
the separators slash and dot, collecting the nonempty segments in
order. -/
def splitGo : List Char → String → List String → List String
  | [], current, parts =>
      if current = "" then parts else parts ++ [current]
  | c :: cs, current, parts =>
      if c = '/' ∨ c = '.' then
        if current = "" then splitGo cs "" parts
        else splitGo cs "" (parts ++ [current])
      else splitGo cs (current ++ c.toString) parts

/-- The segments of a fully qualified function name (the parts slice
built by extractModuleName). -/
def goSegments (function : String) : List String :=
  splitGo function.toList "" []

/-- A segment qualifies as a module name when it is nonempty and is not
one of the generic wrapper names internal and pkg. -/
def qualifies (part : String) : Bool :=
  decide (0 < part.length) && !(part == "internal") && !(part == "pkg")

/-- The backwards scan of extractModuleName: first qualifying segment of
the reversed parts list, defaulting to unknown. -/
def findQualifying : List String → String
  | [] => "unknown"
  | p :: rest => if qualifies p then p else findQualifying rest

/-- extractModuleName: last qualifying segment of the split function
name, or unknown. -/
def extractModuleName (function : String) : String :=
  findQualifying (goSegments function).reverse

/-- getCurrentModule: runtime.Callers(3, pc) with a buffer of 5; the
source then requires more=true from the first Next call before using the
frame, so it falls back to unknown unless at least two frames are
available. -/
def getCurrentModule (stack : List Frame) : String :=
  match stack.take 5 with
  | [] => "unknown"
  | [_] => "unknown"
  | f :: _ :: _ => extractModuleName f.function

/-- Ambient effects consumed by NewAppError: the clock readings taken by
time.Now (Unix seconds and the formatted form) and the call-stack frames
above the record-construction frame, as delivered to both getStackTrace
and getCurrentModule. -/
structure Env where
  nowUnix : Int
  nowFmt : String
  stack : List Frame

/-- NewAppError.  The source declares six parameters (code, message,
priority, errorCode, errorType, userID); every call site under src/
passes only code and message, so those call sites are embedded with the
remaining four arguments empty. -/
def NewAppError (env : Env) (code : ErrorCode)
    (message priority errorCode errorType userID : String) : AppError :=
  { Code := code
    Message := message
    Timestamp := env.nowUnix
    HumanReadableTime := env.nowFmt
    Trace := getStackTrace env.stack
    Module := getCurrentModule env.stack
    Priority := priority
    ErrorCode := errorCode
    ErrorType := errorType
    UserID := userID
    Details := none
    RequestID := "" }

/-- WithModule overwrites the module field and returns the record. -/
def AppError.WithModule (e : AppError) (module : String) : AppError :=
  { e with Module := module }

/-- WithDetails overwrites the details field (a Go interface value,
possibly nil) and returns the record. -/
def AppError.WithDetails (e : AppError) (details : Option Payload) : AppError :=
  { e with Details := details }

/-- WithRequestID overwrites the request id field and returns the
record. -/
def AppError.WithRequestID (e : AppError) (requestID : String) : AppError :=
  { e with RequestID := requestID }

/-- WithoutTrace sets the trace to nil and returns the record. -/
def AppError.WithoutTrace (e : AppError) : AppError :=
  { e with Trace := [] }

/-- Modelled from the spec: the builder method WithErrorCode appears only
at call sites under src/ (its definition is missing); the spec describes
builder operations as overwriting the corresponding optional field and
returning the record for chaining, so it is modelled as a plain overwrite
of the extra ErrorCode field. -/
def AppError.WithErrorCode (e : AppError) (errorCode : String) : AppError :=
  { e with ErrorCode := errorCode }

/-- Modelled from the spec: the builder method WithUserID appears only at
call sites under src/ (its definition is missing); modelled as a plain
overwrite of the extra UserID field. -/
def AppError.WithUserID (e : AppError) (userID : String) : AppError :=
  { e with UserID := userID }

/-- Modelled from the spec: the builder method IsCritical appears only at
call sites under src/ (its definition is missing); modelled as marking
the extra Priority field and returning the record for chaining. -/
def AppError.IsCritical (e : AppError) : AppError :=
  { e with Priority := "critical" }

/-- Modelled from the spec: the builder method IsUserError appears only
at call sites under src/ (its definition is missing); modelled as marking
the extra ErrorType field and returning the record for chaining. -/
def AppError.IsUserError (e : AppError) : AppError :=
  { e with ErrorType := "user" }

/-- Modelled from the spec: the builder method IsSystemError appears only
at call sites under src/ (its definition is missing); modelled as marking
the extra ErrorType field and returning the record for chaining. -/
def AppError.IsSystemError (e : AppError) : AppError :=
  { e with ErrorType := "system" }

/-- The Error method: a short text form of the record. -/
def AppError.error (e : AppError) : String :=
  "[" ++ e.Code ++ "] " ++ e.Message

/-- getHTTPStatusCode from src/http.go: the switch over the error code,
with ErrCodeInternal falling through to the default 500. -/
def getHTTPStatusCode (code : ErrorCode) : Nat :=
  if code = ErrCodeNotFound then 404
  else if code = ErrCodeValidation then 400
  else if code = ErrCodeBadRequest then 400
  else if code = ErrCodeUnauthorized then 401
  else if code = ErrCodeForbidden then 403
  else if code = ErrCodeConflict then 409
  else if code = ErrCodeTooManyRequests then 429
  else if code = ErrCodeServiceUnavailable then 503
  else 500

/-- One body write on a response sink: the serialized JSON value written
by Encoder.Encode, or a plain-text write. -/
inductive Chunk where
  | json (j : Json)
  | text (s : String)

/-- The response-writer state.  headers is the mutable header map;
committed records the status code and the header-map snapshot taken at
the first WriteHeader call (later WriteHeader calls are ignored and later
header mutations never reach the wire); body is the ordered list of body
writes. -/
structure Resp where
  headers : List (String × String)
  committed : Option (Nat × List (String × String))
  body : List Chunk

/-- A fresh response sink. -/
def Resp.new : Resp := { headers := [], committed := none, body := [] }

/-- First match in a header map (newest binding first, matching Set
overwrite semantics for lookups). -/
def hlookup (hs : List (String × String)) (k : String) : Option String :=
  (hs.find? (fun p => p.1 == k)).map (fun p => p.2)

/-- Header().Set(k, v): overwrite the binding for k in the header map. -/
def Resp.setHeader (w : Resp) (k v : String) : Resp :=
  { w with headers := (k, v) :: w.headers }

/-- WriteHeader(status): the first call commits the status together with
the current header map; subsequent calls are ignored. -/
def Resp.writeHeader (w : Resp) (st : Nat) : Resp :=
  match w.committed with
  | some _ => w
  | none => { w with committed := some (st, w.headers) }

/-- Write: an implicit WriteHeader(200) if nothing is committed yet, then
append the chunk to the body. -/
def Resp.write (w : Resp) (c : Chunk) : Resp :=
  let w' := w.writeHeader 200
  { w' with body := w'.body ++ [c] }

/-- The wire-visible status of a response. -/
def Resp.status (w : Resp) : Option Nat := w.committed.map (fun p => p.1)

/-- The wire-visible Content-Type of a response (from the committed
header snapshot). -/
def Resp.contentType (w : Resp) : Option String :=
  w.committed.bind (fun p => hlookup p.2 "Content-Type")

/-- net/http.Error(w, msg, code): sets the plain-text content type and
nosniff headers, calls WriteHeader(code), and writes msg followed by a
newline. -/
def httpError (w : Resp) (msg : String) (st : Nat) : Resp :=
  let w1 := w.setHeader "Content-Type" "text/plain; charset=utf-8"
  let w2 := w1.setHeader "X-Content-Type-Options" "nosniff"
  let w3 := w2.writeHeader st
  w3.write (Chunk.text (msg ++ "\n"))

/-- Last-wins lookup in a JSON object, as encoding/json performs when
filling a struct field (the last occurrence of a key wins). -/
def jlookup : List (String × Json) → String → Option Json
  | [], _ => none
  | p :: rest, k =>
      match jlookup rest k with
      | some v => some v
      | none => if p.1 == k then some p.2 else none

/-- The JSON fields of a serialized AppError, in struct order, with the
omitempty fields dropped when empty.  dj is the already-encoded details
payload (none when the details interface is nil). -/
def errorFields (e : AppError) (dj : Option Json) : List (String × Json) :=
  [("code", Json.str e.Code), ("message", Json.str e.Message),
   ("timestamp", Json.num e.Timestamp)]
  ++ (if e.Module = "" then [] else [("module", Json.str e.Module)])
  ++ (if e.Trace = [] then [] else [("trace", Json.arr (e.Trace.map Json.str))])
  ++ (match dj with
      | none => []
      | some j => [("details", j)])
  ++ (if e.RequestID = "" then [] else [("request_id", Json.str e.RequestID)])

/-- json.Marshal on an AppError: fails exactly when the details payload
is unencodable. -/
def encodeAppError (e : AppError) : Option Json :=
  match e.Details with
  | none => some (Json.obj (errorFields e none))
  | some Payload.unencodable => none
  | some (Payload.json j) => some (Json.obj (errorFields e (some j)))

/-- json.Marshal on the failure envelope success=false, error=record. -/
def encodeErrorResponse (e : AppError) : Option Json :=
  (encodeAppError e).map (fun je =>
    Json.obj [("success", Json.bool false), ("error", je)])

/-- json.Marshal on the success envelope success=true, data=payload; the
data field carries omitempty, so a nil payload is dropped. -/
def encodeSuccessResponse (data : Option Payload) : Option Json :=
  match data with
  | none => some (Json.obj [("success", Json.bool true)])
  | some Payload.unencodable => none
  | some (Payload.json j) =>
      some (Json.obj [("success", Json.bool true), ("data", j)])

/-- Reading a JSON value into a Go string field. -/
def decodeString : Json → Option String
  | Json.str s => some s
  | _ => none

/-- Reading a JSON value into a Go int64 field. -/
def decodeInt : Json → Option Int
  | Json.num n => some n
  | _ => none

/-- Unmarshal of a JSON array into a string slice, element by element. -/
def decodeStrings : List Json → Option (List String)
  | [] => some []
  | j :: rest =>
      match decodeString j with
      | none => none
      | some s =>
          match decodeStrings rest with
          | none => none
          | some ss => some (s :: ss)

/-- Reading a JSON value into a Go string-slice field. -/
def decodeStrList : Json → Option (List String)
  | Json.arr xs => decodeStrings xs
  | _ => none

/-- json.Unmarshal field handling: an absent key leaves the zero value, a
present key must decode at the field type. -/
def decodeField {α : Type} (fields : List (String × Json)) (k : String)
    (dec : Json → Option α) (dflt : α) : Option α :=
  match jlookup fields k with
  | none => some dflt
  | some v => dec v

/-- json.Unmarshal into an AppError: the tagged fields are read when
present and left at their zero values when absent; an interface details
field accepts any JSON value; the untagged fields stay at their zero
values. -/
def decodeAppError : Json → Option AppError
  | Json.obj fields => do
      let code ← decodeField fields "code" decodeString ""
      let message ← decodeField fields "message" decodeString ""
      let timestamp ← decodeField fields "timestamp" decodeInt 0
      let mod ← decodeField fields "module" decodeString ""
      let trace ← decodeField fields "trace" decodeStrList []
      let details :=
        match jlookup fields "details" with
        | none => none
        | some v => some (Payload.json v)
      let requestId ← decodeField fields "request_id" decodeString ""
      some { Code := code, Message := message, Timestamp := timestamp,
             Module := mod, Trace := trace, Details := details,
             RequestID := requestId, HumanReadableTime := "",
             Priority := "", ErrorCode := "", ErrorType := "", UserID := "" }
  | _ => none

/-- WriteErrorResponse from src/http.go: set the JSON content type,
commit the mapped status, then encode the failure envelope; if encoding
fails, fall back to net/http.Error with the fixed message and 500. -/
def WriteErrorResponse (w : Resp) (err : AppError) : Resp :=
  let w1 := w.setHeader "Content-Type" "application/json"
  let w2 := w1.writeHeader (getHTTPStatusCode err.Code)
  match encodeErrorResponse err with
  | some j => w2.write (Chunk.json j)
  | none => httpError w2 "Internal server error" 500

/-- WriteSuccessResponse from src/http.go: set the JSON content type,
commit status 200, encode the success envelope; an encoding error is
ignored (no fallback on the success path). -/
def WriteSuccessResponse (w : Resp) (data : Option Payload) : Resp :=
  let w1 := w.setHeader "Content-Type" "application/json"
  let w2 := w1.writeHeader 200
  match encodeSuccessResponse data with
  | some j => w2.write (Chunk.json j)
  | none => w2

/-- A context value: a string, or a value of any other type (the
wrong-typed case for the request-id lookup). -/
inductive CtxVal where
  | str (s : String)
  | other

/-- An ambient request context: context.WithValue wraps the parent, and
lookups check the innermost binding first. -/
abbrev Context := List (String × CtxVal)

/-- context.WithValue. -/
def withValue (ctx : Context) (k : String) (v : CtxVal) : Context :=
  (k, v) :: ctx

/-- ctx.Value: innermost binding for the key, if any. -/
def ctxValue (ctx : Context) (k : String) : Option CtxVal :=
  (ctx.find? (fun p => p.1 == k)).map (fun p => p.2)

/-- GetRequestID from src/http.go: the type assertion to string yields
the stored string, and the empty string when the value is absent or has
another type. -/
def GetRequestID (ctx : Context) : String :=
  match ctxValue ctx "request_id" with
  | some (CtxVal.str s) => s
  | _ => ""

/-- The decimal rendering loop of fmt.Sprintf on an integer. -/
def natToDecimalAux (n : Nat) (acc : List Char) : List Char :=
  if n < 10 then Nat.digitChar n :: acc
  else natToDecimalAux (n / 10) (Nat.digitChar (n % 10) :: acc)
termination_by n
decreasing_by exact Nat.div_lt_self (by omega) (by omega)

/-- fmt.Sprintf of a nonnegative integer in decimal. -/
def natToDecimal (n : Nat) : String :=
  String.mk (natToDecimalAux n [])

/-- Number of decimal digits (for reasoning about natToDecimal). -/
def numDigits (n : Nat) : Nat :=
  if n < 10 then 1 else numDigits (n / 10) + 1
termination_by n
decreasing_by exact Nat.div_lt_self (by omega) (by omega)

/-- The request data a handler receives; only the ambient context is
relevant to this library. -/
structure Request where
  ctx : Context

/-- The outcome of running a handler body: a normal return with the final
response state, or a panic leaving the response written so far and the
percent-v rendering of the panic value. -/
inductive HOutcome where
  | ok (w : Resp)
  | panicked (w : Resp) (rendered : String)

/-- A request handler. -/
abbrev Handler := Request → Resp → HOutcome

/-- The record built by the recovery middleware for a recovered panic
whose percent-v rendering is v, with the ambient effects env. -/
def recoveryRecord (env : Env) (v : String) : AppError :=
  (((((((NewAppError env ErrCodeInternal "Internal server error"
      "" "" "" "").IsCritical).WithErrorCode "FS001").IsSystemError).WithUserID
      "system").WithDetails
      (some (Payload.json (Json.str ("Panic recovered: " ++ v))))).WithModule
      "middleware")

/-- ErrorRecoveryMiddleware from src/http.go: run the inner handler under
a deferred recover; on a panic, build the internal-error record and
dispatch it through WriteErrorResponse; the panic never escapes. -/
def ErrorRecoveryMiddleware (env : Env) (next : Handler) : Handler :=
  fun r w =>
    match next r w with
    | HOutcome.ok w' => HOutcome.ok w'
    | HOutcome.panicked w' v =>
        HOutcome.ok (WriteErrorResponse w' (recoveryRecord env v))

/-- RequestIDMiddleware from src/http.go: format the current UnixNano
reading as a decimal string, attach it to the request context under the
request_id key, and invoke the inner handler with the enriched
request. -/
def RequestIDMiddleware (nanos : Nat) (next : Handler) : Handler :=
  fun r w =>
    next { r with ctx := withValue r.ctx "request_id"
                    (CtxVal.str (natToDecimal nanos)) } w

/-- One post-clearing builder call, for stating that a cleared trace
stays cleared under any chain of the three spec builders. -/
inductive BuilderOp where
  | mod (m : String)
  | det (d : Option Payload)
  | req (r : String)

/-- Apply one builder call. -/
def applyOp (e : AppError) : BuilderOp → AppError
  | BuilderOp.mod m => e.WithModule m
  | BuilderOp.det d => e.WithDetails d
  | BuilderOp.req r => e.WithRequestID r

/-- Apply a chain of builder calls left to right. -/
def applyOps (e : AppError) (ops : List BuilderOp) : AppError :=
  ops.foldl applyOp e

/-- The last qualifying segment of a fully qualified function name, as a
spec-level description (filter the segments, take the last). -/
def lastQualifying (function : String) : Option String :=
  ((goSegments function).filter qualifies).getLast?

/-- A normal call context for module inference: the introspected stack
offers at least two frames, and the first frame carries a qualifying
final segment different from the literal unknown. -/
def normalCallContext (stack : List Frame) : Prop :=
  ∃ f g rest, stack.take 5 = f :: g :: rest ∧
    ∃ m, lastQualifying f.function = some m ∧ m ≠ "unknown"

/-- A concrete record whose details payload the JSON encoder rejects,
carrying the not-found code. -/
def unencodableNotFound : AppError :=
  { Code := ErrCodeNotFound, Message := "Resource not found", Timestamp := 0,
    Module := "", Trace := [], Details := some Payload.unencodable,
    RequestID := "", HumanReadableTime := "", Priority := "",
    ErrorCode := "", ErrorType := "", UserID := "" }

/-! ## Helper lemmas -/

theorem getStackTraceLoop_prefix (fs : List Frame) :
    ∀ acc, ∃ t, getStackTraceLoop fs acc = acc ++ t := by
  induction fs with
  | nil =>
      intro acc
      simp only [getStackTraceLoop]
      split
      · exact ⟨[], by simp⟩
      · exact ⟨[renderFrame zeroFrame], rfl⟩
  | cons f rest ih =>
      intro acc
      cases rest with
      | nil =>
          simp only [getStackTraceLoop]
          split
          · exact ⟨[], by simp⟩
          · exact ⟨[renderFrame f], rfl⟩
      | cons g rest' =>
          simp only [getStackTraceLoop]
          split
          · split
            · exact ⟨[], by simp⟩
            · exact ih acc
          · split
            · exact ⟨[renderFrame f], rfl⟩
            · obtain ⟨t, ht⟩ := ih (acc ++ [renderFrame f])
              exact ⟨[renderFrame f] ++ t, by simp [ht]⟩

theorem getStackTraceLoop_length (fs : List Frame) :
    ∀ acc, acc.length < 10 → (getStackTraceLoop fs acc).length ≤ 10 := by
  induction fs with
  | nil =>
      intro acc hacc
      simp only [getStackTraceLoop]
      split
      · omega
      · simp; omega
  | cons f rest ih =>
      intro acc hacc
      cases rest with
      | nil =>
          simp only [getStackTraceLoop]
          split
          · omega
          · simp; omega
      | cons g rest' =>
          simp only [getStackTraceLoop]
          split
          · split
            · omega
            · exact ih acc hacc
          · rename_i hsys
            split
            · rename_i hlen
              simp at hlen ⊢
              omega
            · rename_i hlen
              apply ih
              simp at hlen ⊢
              omega

theorem getStackTraceLoop_mem (fs : List Frame) :
    ∀ acc s, s ∈ getStackTraceLoop fs acc →
      s ∈ acc ∨ ∃ f : Frame, (f ∈ fs ∨ f = zeroFrame) ∧
        isSystemFrame f.function = false ∧ s = renderFrame f := by
  induction fs with
  | nil =>
      intro acc s hs
      simp only [getStackTraceLoop] at hs
      split at hs
      · exact Or.inl hs
      · rename_i hsys
        rcases List.mem_append.mp hs with h | h
        · exact Or.inl h
        · refine Or.inr ⟨zeroFrame, Or.inr rfl, ?_, ?_⟩
          · simpa using hsys
          · simpa using h
  | cons f rest ih =>
      intro acc s hs
      cases rest with
      | nil =>
          simp only [getStackTraceLoop] at hs
          split at hs
          · exact Or.inl hs
          · rename_i hsys
            rcases List.mem_append.mp hs with h | h
            · exact Or.inl h
            · refine Or.inr ⟨f, Or.inl (by simp), ?_, ?_⟩
              · simpa using hsys
              · simpa using h
      | cons g rest' =>
          simp only [getStackTraceLoop] at hs
          split at hs
          · rename_i hsys
            split at hs
            · exact Or.inl hs
            · rcases ih acc s hs with h | ⟨fr, hmem, hsys', hr⟩
              · exact Or.inl h
              · refine Or.inr ⟨fr, ?_, hsys', hr⟩
                rcases hmem with h | h
                · exact Or.inl (List.mem_cons_of_mem _ h)
                · exact Or.inr h
          · rename_i hsys
            have hcase : ∀ x, x ∈ acc ++ [renderFrame f] →
                x ∈ acc ∨ ∃ fr : Frame, (fr ∈ f :: g :: rest' ∨ fr = zeroFrame) ∧
                  isSystemFrame fr.function = false ∧ x = renderFrame fr := by
              intro x hx
              rcases List.mem_append.mp hx with h | h
              · exact Or.inl h
              · refine Or.inr ⟨f, Or.inl (by simp), ?_, ?_⟩
                · simpa using hsys
                · simpa using h
            split at hs
            · exact hcase s hs
            · rcases ih (acc ++ [renderFrame f]) s hs with h | ⟨fr, hmem, hsys', hr⟩
              · exact hcase s h
              · refine Or.inr ⟨fr, ?_, hsys', hr⟩
                rcases hmem with h | h
                · exact Or.inl (List.mem_cons_of_mem _ h)
                · exact Or.inr h

theorem getStackTraceLoop_ne_nil (fs : List Frame) :
    ∀ acc, (∃ f ∈ fs, isSystemFrame f.function = false) →
      getStackTraceLoop fs acc ≠ [] := by
  induction fs with
  | nil =>
      intro acc h
      simp at h
  | cons f rest ih =>
      intro acc h
      cases rest with
      | nil =>
          simp only [getStackTraceLoop]
          rcases h with ⟨fr, hmem, hsys⟩
          simp at hmem
          subst hmem
          rw [if_neg (by simp [hsys])]
          simp
      | cons g rest' =>
          simp only [getStackTraceLoop]
          split
          · rename_i hsys
            split
            · rename_i hlen
              intro hnil
              rw [hnil] at hlen
              simp at hlen
            · apply ih
              rcases h with ⟨fr, hmem, hsys'⟩
              rcases List.mem_cons.mp hmem with h | h
              · subst h
                rw [hsys'] at hsys
                simp at hsys
              · exact ⟨fr, h, hsys'⟩
          · split
            · rename_i hlen
              intro hnil
              rw [hnil] at hlen
              simp at hlen
            · obtain ⟨t, ht⟩ := getStackTraceLoop_prefix (g :: rest') (acc ++ [renderFrame f])
              rw [ht]
              simp

theorem findQualifying_eq (l : List String) :
    findQualifying l = ((l.filter qualifies).head?).getD "unknown" := by
  induction l with
  | nil => rfl
  | cons p rest ih =>
      by_cases hq : qualifies p
      · simp [findQualifying, hq, List.filter_cons]
      · simp [findQualifying, hq, List.filter_cons, ih]

theorem extractModuleName_eq (fn : String) :
    extractModuleName fn = (lastQualifying fn).getD "unknown" := by
  rw [extractModuleName, findQualifying_eq, lastQualifying,
    List.filter_reverse, ← List.getLast?_eq_head?_reverse]

theorem jlookup_errorFields_code (e : AppError) (dj : Option Json) :
    jlookup (errorFields e dj) "code" = some (Json.str e.Code) := by
  simp only [errorFields]
  by_cases hm : e.Module = "" <;> by_cases ht : e.Trace = [] <;>
    by_cases hr : e.RequestID = "" <;> cases dj <;>
    simp [hm, ht, hr, jlookup]

theorem decodeStrings_map (ts : List String) :
    decodeStrings (ts.map Json.str) = some ts := by
  induction ts with
  | nil => rfl
  | cons t rest ih => simp [decodeStrings, ih, decodeString]

theorem write_error_status (w : Resp) (e : AppError) (hc : w.committed = none) :
    (WriteErrorResponse w e).status = some (getHTTPStatusCode e.Code) := by
  simp only [WriteErrorResponse]
  split <;>
    simp [Resp.status, Resp.write, Resp.writeHeader, Resp.setHeader, httpError, hc]

theorem write_error_contentType (w : Resp) (e : AppError)
    (hc : w.committed = none) :
    (WriteErrorResponse w e).contentType = some "application/json" := by
  simp only [WriteErrorResponse]
  split <;>
    simp [Resp.contentType, Resp.write, Resp.writeHeader, Resp.setHeader,
      httpError, hc, hlookup, List.find?]

theorem write_error_body_ok (w : Resp) (e : AppError) (j : Json)
    (hc : w.committed = none) (he : encodeErrorResponse e = some j) :
    (WriteErrorResponse w e).body = w.body ++ [Chunk.json j] := by
  simp only [WriteErrorResponse, he]
  simp [Resp.write, Resp.writeHeader, Resp.setHeader, hc]

theorem write_error_body_fallback (w : Resp) (e : AppError)
    (hc : w.committed = none) (he : encodeErrorResponse e = none) :
    (WriteErrorResponse w e).body =
      w.body ++ [Chunk.text ("Internal server error" ++ "\n")] := by
  simp only [WriteErrorResponse, he]
  simp [httpError, Resp.write, Resp.writeHeader, Resp.setHeader, hc]

theorem natToDecimalAux_length (n : Nat) :
    ∀ acc : List Char,
      (natToDecimalAux n acc).length = numDigits n + acc.length := by
  induction n using Nat.strong_induction_on with
  | _ n ih =>
      intro acc
      rw [natToDecimalAux, numDigits]
      by_cases h : n < 10
      · simp [h]
        omega
      · rw [if_neg h, if_neg h, ih (n / 10) (Nat.div_lt_self (by omega) (by omega))]
        simp
        omega

theorem numDigits_pos (n : Nat) : 1 ≤ numDigits n := by
  rw [numDigits]
  split
  · omega
  · omega

theorem numDigits_ge (k : Nat) :
    ∀ n : Nat, 10 ^ k ≤ n → k + 1 ≤ numDigits n := by
  induction k with
  | zero => intro n _; simpa using numDigits_pos n
  | succ k ih =>
      intro n hn
      have h10 : ¬ n < 10 := by
        have : (10 : Nat) ≤ 10 ^ (k + 1) := by
          calc (10 : Nat) = 10 ^ 1 := by norm_num
          _ ≤ 10 ^ (k + 1) := Nat.pow_le_pow_right (by omega) (by omega)
        omega
      rw [numDigits, if_neg h10]
      have hdiv : 10 ^ k ≤ n / 10 := by
        rw [Nat.le_div_iff_mul_le (by omega)]
        calc 10 ^ k * 10 = 10 ^ (k + 1) := by rw [pow_succ]
        _ ≤ n := hn
      have := ih (n / 10) hdiv
      omega

theorem natToDecimal_length_ge (n : Nat) (h : 10 ^ 9 ≤ n) :
    10 ≤ (natToDecimal n).length := by
  have h1 : (natToDecimal n).length = numDigits n := by
    rw [natToDecimal, String.length_mk, natToDecimalAux_length]
    simp
  rw [h1]
  have := numDigits_ge 9 n h
  omega

theorem natToDecimal_ne_empty (n : Nat) : natToDecimal n ≠ "" := by
  intro hcontra
  have h1 : (natToDecimal n).length = numDigits n := by
    rw [natToDecimal, String.length_mk, natToDecimalAux_length]
    simp
  rw [hcontra] at h1
  have := numDigits_pos n
  simp [String.length] at h1
  omega

/-! ## Claim theorems -/

/-- C2: the status-mapping function is total and never fails: every
ErrorKind maps to its fixed table value (not-found to 404, validation and
bad-request to 400, unauthorized to 401, forbidden to 403, conflict to
409, rate-limited to 429, unavailable to 503, internal to 500), and any
unrecognized kind string maps to 500. -/
theorem C2_status_mapping :
    (getHTTPStatusCode ErrCodeNotFound = 404 ∧
     getHTTPStatusCode ErrCodeValidation = 400 ∧
     getHTTPStatusCode ErrCodeBadRequest = 400 ∧
     getHTTPStatusCode ErrCodeUnauthorized = 401 ∧
     getHTTPStatusCode ErrCodeForbidden = 403 ∧
     getHTTPStatusCode ErrCodeConflict = 409 ∧
     getHTTPStatusCode ErrCodeTooManyRequests = 429 ∧
     getHTTPStatusCode ErrCodeServiceUnavailable = 503 ∧
     getHTTPStatusCode ErrCodeInternal = 500) ∧
    ∀ code : ErrorCode,
      code ∉ [ErrCodeNotFound, ErrCodeValidation, ErrCodeBadRequest,
              ErrCodeUnauthorized, ErrCodeForbidden, ErrCodeConflict,
              ErrCodeTooManyRequests, ErrCodeServiceUnavailable,
              ErrCodeInternal] →
      getHTTPStatusCode code = 500 := by
  constructor
  · refine ⟨by decide, by decide, by decide, by decide, by decide,
      by decide, by decide, by decide, by decide⟩
  · intro code h
    simp only [List.mem_cons, List.not_mem_nil, or_false, not_or] at h
    obtain ⟨h1, h2, h3, h4, h5, h6, h7, h8, h9⟩ := h
    rw [getHTTPStatusCode, if_neg h1, if_neg h2, if_neg h3, if_neg h4,
      if_neg h5, if_neg h6, if_neg h7, if_neg h8]

/-- C2 witness: an unrecognized kind string maps to 500. -/
theorem C2_status_mapping_witness :
    ("UNKNOWN" : ErrorCode) ∉
      [ErrCodeNotFound, ErrCodeValidation, ErrCodeBadRequest,
       ErrCodeUnauthorized, ErrCodeForbidden, ErrCodeConflict,
       ErrCodeTooManyRequests, ErrCodeServiceUnavailable,
       ErrCodeInternal] ∧
    getHTTPStatusCode "UNKNOWN" = 500 :=
  ⟨by decide, C2_status_mapping.2 "UNKNOWN" (by decide)⟩

/-- C6 counterexample: the claim as stated fails on the code.  A frame
whose function name is exactly the deny-listed name prefix runtime-dot
starts with that prefix, yet getStackTrace retains it, because
isSystemFrame requires the function name to be strictly longer than the
matched prefix. -/
theorem C6_counterexample :
    "runtime." ∈ systemPrefixes ∧
    ("runtime." : String).take ("runtime." : String).length = "runtime." ∧
    isSystemFrame "runtime." = false ∧
    getStackTrace [{ file := "a.go", line := 7, function := "runtime." }] =
      ["a.go:7 runtime."] := by
  refine ⟨by decide, by decide, by decide, ?_⟩
  rfl

/-- C6 amended: getStackTrace walks at most the first fifteen frames
above the record-construction frame, yields at most ten entries, and
every entry is the file-colon-line-space-function rendering of a frame
that does not strictly extend any deny-listed prefix (frames whose names
strictly extend a deny-listed prefix are skipped; a name exactly equal to
a prefix is retained); on an exhausted frame list the Go iterator
surfaces one zero frame, which accounts for the only entry not drawn from
the stack itself. -/
theorem C6_stack_capture_amended :
    ∀ stack : List Frame,
      (getStackTrace stack).length ≤ 10 ∧
      ∀ s ∈ getStackTrace stack, ∃ f : Frame,
        (f ∈ stack.take 15 ∨ f = zeroFrame) ∧
        isSystemFrame f.function = false ∧
        (∀ p ∈ systemPrefixes,
          ¬ (p.length < f.function.length ∧ f.function.take p.length = p)) ∧
        s = f.file ++ ":" ++ toString f.line ++ " " ++ f.function := by
  intro stack
  constructor
  · exact getStackTraceLoop_length (stack.take 15) [] (by simp)
  · intro s hs
    rcases getStackTraceLoop_mem (stack.take 15) [] s hs with h | ⟨f, hmem, hsys, hr⟩
    · simp at h
    · refine ⟨f, hmem, hsys, ?_, hr⟩
      intro p hp hcontra
      have : isSystemFrame f.function = true := by
        simp only [isSystemFrame, List.any_eq_true]
        refine ⟨p, hp, ?_⟩
        simp only [Bool.and_eq_true, decide_eq_true_eq, beq_iff_eq]
        exact ⟨hcontra.1, hcontra.2⟩
      rw [this] at hsys
      simp at hsys

/-- C6 amended witness at a concrete one-frame stack. -/
theorem C6_stack_capture_amended_witness :
    (getStackTrace [(⟨"u.go", 3, "app.run"⟩ : Frame)]).length ≤ 10 ∧
    ∀ s ∈ getStackTrace [(⟨"u.go", 3, "app.run"⟩ : Frame)],
      ∃ f : Frame,
        (f ∈ [(⟨"u.go", 3, "app.run"⟩ : Frame)].take 15 ∨ f = zeroFrame) ∧
        isSystemFrame f.function = false ∧
        (∀ p ∈ systemPrefixes,
          ¬ (p.length < f.function.length ∧ f.function.take p.length = p)) ∧
        s = f.file ++ ":" ++ toString f.line ++ " " ++ f.function :=
  C6_stack_capture_amended [(⟨"u.go", 3, "app.run"⟩ : Frame)]

/-- C7: module inference takes the first introspected frame (when the
iterator reports that a further frame follows it), splits its fully
qualified function name on slash and dot, and returns the last nonempty
segment that is neither internal nor pkg, falling back to unknown when no
segment qualifies or when fewer than two usable frames are available. -/
theorem C7_module_inference :
    (∀ (stack : List Frame) (f g : Frame) (rest : List Frame),
        stack.take 5 = f :: g :: rest →
        getCurrentModule stack = extractModuleName f.function) ∧
    (∀ fn : String,
        extractModuleName fn =
          (((goSegments fn).filter qualifies).getLast?).getD "unknown") ∧
    (∀ fn : String, (goSegments fn).filter qualifies = [] →
        extractModuleName fn = "unknown") ∧
    getCurrentModule [] = "unknown" ∧
    (∀ f : Frame, getCurrentModule [f] = "unknown") := by
  refine ⟨?_, ?_, ?_, rfl, fun f => rfl⟩
  · intro stack f g rest h
    rw [getCurrentModule, h]
  · intro fn
    rw [extractModuleName_eq, lastQualifying]
  · intro fn h
    rw [extractModuleName_eq, lastQualifying, h]
    rfl

/-- C7 witness at concrete inputs: a two-frame stack uses the first
frame, the extraction returns the last qualifying segment, and short
stacks fall back to unknown. -/
theorem C7_module_inference_witness :
    getCurrentModule
        [{ file := "a.go", line := 1, function := "svc/api.List" },
         { file := "b.go", line := 2, function := "main.main" }] =
      extractModuleName "svc/api.List" ∧
    extractModuleName "svc/api.List" = "List" ∧
    (((goSegments "svc/api.List").filter qualifies).getLast?).getD "unknown" =
      "List" ∧
    extractModuleName "x/internal.pkg" = "x" ∧
    getCurrentModule [] = "unknown" :=
  ⟨C7_module_inference.1 _
      { file := "a.go", line := 1, function := "svc/api.List" }
      { file := "b.go", line := 2, function := "main.main" } [] rfl,
   by decide, by decide, by decide,
   C7_module_inference.2.2.2.1⟩

/-- C8: WithoutTrace clears the trace, and the cleared trace stays
cleared under any later chain of WithModule, WithDetails and
WithRequestID calls; each of those builders overwrites only its own field
and leaves every other field of the record unchanged. -/
theorem C8_without_trace_stays_cleared :
    (∀ e : AppError, (e.WithoutTrace).Trace = []) ∧
    (∀ (e : AppError) (ops : List BuilderOp),
        (applyOps e.WithoutTrace ops).Trace = []) ∧
    (∀ (e : AppError) (m : String),
        (e.WithModule m).Module = m ∧
        (e.WithModule m).Code = e.Code ∧
        (e.WithModule m).Message = e.Message ∧
        (e.WithModule m).Timestamp = e.Timestamp ∧
        (e.WithModule m).Trace = e.Trace ∧
        (e.WithModule m).Details = e.Details ∧
        (e.WithModule m).RequestID = e.RequestID) ∧
    (∀ (e : AppError) (d : Option Payload),
        (e.WithDetails d).Details = d ∧
        (e.WithDetails d).Code = e.Code ∧
        (e.WithDetails d).Message = e.Message ∧
        (e.WithDetails d).Timestamp = e.Timestamp ∧
        (e.WithDetails d).Trace = e.Trace ∧
        (e.WithDetails d).Module = e.Module ∧
        (e.WithDetails d).RequestID = e.RequestID) ∧
    (∀ (e : AppError) (r : String),
        (e.WithRequestID r).RequestID = r ∧
        (e.WithRequestID r).Code = e.Code ∧
        (e.WithRequestID r).Message = e.Message ∧
        (e.WithRequestID r).Timestamp = e.Timestamp ∧
        (e.WithRequestID r).Trace = e.Trace ∧
        (e.WithRequestID r).Module = e.Module ∧
        (e.WithRequestID r).Details = e.Details) := by
  have htrace : ∀ (op : BuilderOp) (e : AppError), (applyOp e op).Trace = e.Trace := by
    intro op e
    cases op <;> rfl
  refine ⟨fun e => rfl, ?_, ?_, ?_, ?_⟩
  · intro e ops
    have h : ∀ (ops : List BuilderOp) (e : AppError),
        (applyOps e ops).Trace = e.Trace := by
      intro ops
      induction ops with
      | nil => intro e; rfl
      | cons op rest ih =>
          intro e
          rw [applyOps, List.foldl_cons, ← applyOps, ih, htrace]
    rw [h]
    rfl
  · intro e m
    exact ⟨rfl, rfl, rfl, rfl, rfl, rfl, rfl⟩
  · intro e d
    exact ⟨rfl, rfl, rfl, rfl, rfl, rfl, rfl⟩
  · intro e r
    exact ⟨rfl, rfl, rfl, rfl, rfl, rfl, rfl⟩

/-- C4: NewAppError returns a fully formed record: its timestamp is the
clock reading taken during the call (hence inside any bracket around the
call), its trace is the captured stack (nonempty whenever the first
fifteen introspected frames contain an informative one), its module is
inferred from the stack (not unknown in a normal call context), and the
optional details and request-id fields are empty. -/
theorem C4_new_app_error
    (env : Env) (code message priority errorCode errorType userID : String)
    (t1 t2 : Int)
    (hb : t1 ≤ env.nowUnix) (ha : env.nowUnix ≤ t2)
    (hframe : ∃ f ∈ env.stack.take 15, isSystemFrame f.function = false)
    (hctx : normalCallContext env.stack) :
    (NewAppError env code message priority errorCode errorType userID).Timestamp
        = env.nowUnix ∧
    t1 ≤ (NewAppError env code message priority errorCode errorType
        userID).Timestamp ∧
    (NewAppError env code message priority errorCode errorType userID).Timestamp
        ≤ t2 ∧
    (NewAppError env code message priority errorCode errorType userID).Trace
        = getStackTrace env.stack ∧
    (NewAppError env code message priority errorCode errorType userID).Trace
        ≠ [] ∧
    (NewAppError env code message priority errorCode errorType userID).Module
        = getCurrentModule env.stack ∧
    (NewAppError env code message priority errorCode errorType userID).Module
        ≠ "unknown" ∧
    (NewAppError env code message priority errorCode errorType userID).Details
        = none ∧
    (NewAppError env code message priority errorCode errorType userID).RequestID
        = "" ∧
    (NewAppError env code message priority errorCode errorType userID).Code
        = code ∧
    (NewAppError env code message priority errorCode errorType userID).Message
        = message := by
  refine ⟨rfl, hb, ha, rfl, ?_, rfl, ?_, rfl, rfl, rfl, rfl⟩
  · exact getStackTraceLoop_ne_nil (env.stack.take 15) [] hframe
  · obtain ⟨f, g, rest, htake, m, hlast, hm⟩ := hctx
    show getCurrentModule env.stack ≠ "unknown"
    rw [getCurrentModule, htake]
    show extractModuleName f.function ≠ "unknown"
    rw [extractModuleName_eq, hlast]
    exact hm

/-- C4 witness at a concrete environment with a two-frame stack. -/
theorem C4_new_app_error_witness :
    ((1703123456 : Int) ≤ 1703123456 ∧
     (∃ f ∈ ([⟨"h.go", 42, "main.handler"⟩,
              ⟨"m.go", 10, "main.main"⟩] : List Frame).take 15,
        isSystemFrame f.function = false) ∧
     normalCallContext
       [⟨"h.go", 42, "main.handler"⟩, ⟨"m.go", 10, "main.main"⟩]) ∧
    ((NewAppError ⟨1703123456, "2023-12-21 00:30:56",
        [⟨"h.go", 42, "main.handler"⟩, ⟨"m.go", 10, "main.main"⟩]⟩
        ErrCodeNotFound "Resource not found" "" "" "" "").Timestamp
          = 1703123456 ∧
     (NewAppError ⟨1703123456, "2023-12-21 00:30:56",
        [⟨"h.go", 42, "main.handler"⟩, ⟨"m.go", 10, "main.main"⟩]⟩
        ErrCodeNotFound "Resource not found" "" "" "" "").Trace ≠ [] ∧
     (NewAppError ⟨1703123456, "2023-12-21 00:30:56",
        [⟨"h.go", 42, "main.handler"⟩, ⟨"m.go", 10, "main.main"⟩]⟩
        ErrCodeNotFound "Resource not found" "" "" "" "").Module
          ≠ "unknown" ∧
     (NewAppError ⟨1703123456, "2023-12-21 00:30:56",
        [⟨"h.go", 42, "main.handler"⟩, ⟨"m.go", 10, "main.main"⟩]⟩
        ErrCodeNotFound "Resource not found" "" "" "" "").Details = none ∧
     (NewAppError ⟨1703123456, "2023-12-21 00:30:56",
        [⟨"h.go", 42, "main.handler"⟩, ⟨"m.go", 10, "main.main"⟩]⟩
        ErrCodeNotFound "Resource not found" "" "" "" "").RequestID = "") := by
  have hframe : ∃ f ∈ ([⟨"h.go", 42, "main.handler"⟩,
      ⟨"m.go", 10, "main.main"⟩] : List Frame).take 15,
      isSystemFrame f.function = false :=
    ⟨⟨"h.go", 42, "main.handler"⟩, by decide, by decide⟩
  have hctx : normalCallContext
      [⟨"h.go", 42, "main.handler"⟩, ⟨"m.go", 10, "main.main"⟩] :=
    ⟨⟨"h.go", 42, "main.handler"⟩, ⟨"m.go", 10, "main.main"⟩, [], rfl,
     "handler", by decide, by decide⟩
  have h := C4_new_app_error
    ⟨1703123456, "2023-12-21 00:30:56",
      [⟨"h.go", 42, "main.handler"⟩, ⟨"m.go", 10, "main.main"⟩]⟩
    ErrCodeNotFound "Resource not found" "" "" "" ""
    1703123456 1703123456 (le_refl _) (le_refl _) hframe hctx
  exact ⟨⟨le_refl _, hframe, hctx⟩,
    h.1, h.2.2.2.2.1, h.2.2.2.2.2.2.1, h.2.2.2.2.2.2.2.1, h.2.2.2.2.2.2.2.2.1⟩

/-- C9: the request-id middleware attaches a decimal rendering of the
current UnixNano reading to the ambient context before invoking the inner
handler, so the handler observes it by context lookup: it is nonempty and
at least ten characters long for any clock past the first second of 1970;
and GetRequestID never fails, returning the stored string when a
string-typed value is present and the empty string when the value is
absent or has another type. -/
theorem C9_request_id
    (nanos : Nat) (next : Handler) (r : Request) (w : Resp)
    (hn : 10 ^ 9 ≤ nanos) :
    (RequestIDMiddleware nanos next r w =
      next ⟨withValue r.ctx "request_id" (CtxVal.str (natToDecimal nanos))⟩ w) ∧
    (∀ ctx : Context,
      GetRequestID (withValue ctx "request_id" (CtxVal.str (natToDecimal nanos)))
        = natToDecimal nanos) ∧
    natToDecimal nanos ≠ "" ∧
    10 ≤ (natToDecimal nanos).length ∧
    (∀ ctx : Context, ctxValue ctx "request_id" = none →
      GetRequestID ctx = "") ∧
    (∀ ctx : Context, ctxValue ctx "request_id" = some CtxVal.other →
      GetRequestID ctx = "") := by
  refine ⟨rfl, ?_, natToDecimal_ne_empty nanos, natToDecimal_length_ge nanos hn,
    ?_, ?_⟩
  · intro ctx
    simp [GetRequestID, ctxValue, withValue, List.find?]
  · intro ctx h
    rw [GetRequestID, h]
  · intro ctx h
    rw [GetRequestID, h]

/-- C9 witness at a concrete UnixNano reading, an empty context, and a
wrong-typed context. -/
theorem C9_request_id_witness :
    10 ^ 9 ≤ 1703123456789123456 ∧
    GetRequestID (withValue [] "request_id"
        (CtxVal.str (natToDecimal 1703123456789123456)))
      = natToDecimal 1703123456789123456 ∧
    natToDecimal 1703123456789123456 ≠ "" ∧
    10 ≤ (natToDecimal 1703123456789123456).length ∧
    GetRequestID [] = "" ∧
    GetRequestID [("request_id", CtxVal.other)] = "" := by
  have h := C9_request_id 1703123456789123456
    (fun _ w => HOutcome.ok w) ⟨[]⟩ Resp.new (by norm_num)
  exact ⟨by norm_num, h.2.1 [], h.2.2.1, h.2.2.2.1,
    h.2.2.2.2.1 [] rfl, h.2.2.2.2.2 [("request_id", CtxVal.other)] rfl⟩

/-- C1: when the inner handler panics, the recovery middleware intercepts
the panic at the wrapper boundary, constructs one internal-error record
with code INTERNAL_ERROR, message Internal server error, details set to
the string rendering of the captured panic value (which contains the
panic payload text), module set to the literal middleware, dispatches it
once through WriteErrorResponse yielding transport status 500 (when the
handler had not yet committed a response), and never lets the panic
escape past the wrapper. -/
theorem C1_recovery_middleware
    (env : Env) (next : Handler) (r : Request) (w w' : Resp) (v : String)
    (hp : next r w = HOutcome.panicked w' v)
    (hc : w'.committed = none) :
    (ErrorRecoveryMiddleware env next r w =
      HOutcome.ok (WriteErrorResponse w' (recoveryRecord env v))) ∧
    (recoveryRecord env v).Code = ErrCodeInternal ∧
    ErrCodeInternal = "INTERNAL_ERROR" ∧
    (recoveryRecord env v).Message = "Internal server error" ∧
    (recoveryRecord env v).Module = "middleware" ∧
    (recoveryRecord env v).Details =
      some (Payload.json (Json.str ("Panic recovered: " ++ v))) ∧
    (∃ pre suf : String, "Panic recovered: " ++ v = pre ++ v ++ suf) ∧
    (WriteErrorResponse w' (recoveryRecord env v)).status = some 500 ∧
    (∃ j : Json, encodeErrorResponse (recoveryRecord env v) = some j ∧
      (WriteErrorResponse w' (recoveryRecord env v)).body =
        w'.body ++ [Chunk.json j]) ∧
    (∀ (next' : Handler) (r' : Request) (w'' : Resp),
      ∃ wout : Resp, ErrorRecoveryMiddleware env next' r' w'' =
        HOutcome.ok wout) := by
  refine ⟨?_, rfl, rfl, rfl, rfl, rfl, ?_, ?_, ?_, ?_⟩
  · rw [ErrorRecoveryMiddleware, hp]
  · exact ⟨"Panic recovered: ", "", by simp⟩
  · rw [write_error_status w' (recoveryRecord env v) hc]
    rfl
  · refine ⟨Json.obj [("success", Json.bool false),
      ("error", Json.obj (errorFields (recoveryRecord env v)
        (some (Json.str ("Panic recovered: " ++ v)))))], rfl, ?_⟩
    exact write_error_body_ok w' (recoveryRecord env v) _ hc rfl
  · intro next' r' w''
    rw [ErrorRecoveryMiddleware]
    cases hout : next' r' w'' with
    | ok wr => exact ⟨wr, rfl⟩
    | panicked wr vr =>
        exact ⟨WriteErrorResponse wr (recoveryRecord env vr), rfl⟩

/-- C1 witness: a handler that panics with payload Test panic on a fresh
sink yields one 500 envelope with the internal code, the middleware
module and details containing the payload, and the panic is contained. -/
theorem C1_recovery_middleware_witness :
    ((fun (_ : Request) (w : Resp) =>
        HOutcome.panicked w "Test panic") (⟨[]⟩ : Request) Resp.new =
      HOutcome.panicked Resp.new "Test panic") ∧
    Resp.new.committed = none ∧
    (ErrorRecoveryMiddleware ⟨0, "", []⟩
        (fun (_ : Request) (w : Resp) => HOutcome.panicked w "Test panic")
        (⟨[]⟩ : Request) Resp.new =
      HOutcome.ok (WriteErrorResponse Resp.new
        (recoveryRecord ⟨0, "", []⟩ "Test panic"))) ∧
    (recoveryRecord ⟨0, "", []⟩ "Test panic").Code = "INTERNAL_ERROR" ∧
    (recoveryRecord ⟨0, "", []⟩ "Test panic").Module = "middleware" ∧
    (recoveryRecord ⟨0, "", []⟩ "Test panic").Details =
      some (Payload.json (Json.str "Panic recovered: Test panic")) ∧
    (∃ pre suf : String,
      "Panic recovered: " ++ "Test panic" = pre ++ "Test panic" ++ suf) ∧
    (WriteErrorResponse Resp.new
      (recoveryRecord ⟨0, "", []⟩ "Test panic")).status = some 500 := by
  have h := C1_recovery_middleware ⟨0, "", []⟩
    (fun (_ : Request) (w : Resp) => HOutcome.panicked w "Test panic")
    (⟨[]⟩ : Request) Resp.new Resp.new "Test panic" rfl rfl
  exact ⟨rfl, rfl, h.1, h.2.1, h.2.2.2.2.1, h.2.2.2.2.2.1,
    h.2.2.2.2.2.2.1, h.2.2.2.2.2.2.2.1⟩

/-- C3 counterexample: the claim as stated fails on the code.  On a
record with the not-found kind and an unencodable details payload,
serialization fails and the fallback runs, yet the wire response is not a
plain-text 500: the status was already committed as 404 and the committed
content type stays application/json; only the fallback body text is
written.  The WriteHeader(500) issued by the fallback is ignored because
Go commits at most one status per response. -/
theorem C3_counterexample :
    unencodableNotFound.Details = some Payload.unencodable ∧
    encodeErrorResponse unencodableNotFound = none ∧
    (WriteErrorResponse Resp.new unencodableNotFound).status = some 404 ∧
    (WriteErrorResponse Resp.new unencodableNotFound).status ≠ some 500 ∧
    (WriteErrorResponse Resp.new unencodableNotFound).contentType =
      some "application/json" ∧
    (WriteErrorResponse Resp.new unencodableNotFound).body =
      [Chunk.text ("Internal server error" ++ "\n")] :=
  ⟨rfl, rfl, rfl, by decide, rfl, rfl⟩

/-- C3 amended: on an uncommitted sink, WriteErrorResponse commits
content type application/json and status StatusMapping of the record
kind; when the envelope serializes, it writes exactly that envelope (in
particular a not-found record commits 404 and the envelope error object
carries code NOT_FOUND); when serialization fails, it falls back to one
fixed plain-text body write through the standard error helper, but the
already-committed mapped status and JSON content type remain on the wire
instead of a plain-text 500; the fallback is one unconditional write that
cannot fail or loop. -/
theorem C3_write_error_amended
    (w : Resp) (e : AppError) (hc : w.committed = none) :
    (WriteErrorResponse w e).contentType = some "application/json" ∧
    (WriteErrorResponse w e).status = some (getHTTPStatusCode e.Code) ∧
    (e.Details ≠ some Payload.unencodable →
      ∃ fs : List (String × Json), encodeAppError e = some (Json.obj fs) ∧
        jlookup fs "code" = some (Json.str e.Code) ∧
        (WriteErrorResponse w e).body = w.body ++
          [Chunk.json (Json.obj
            [("success", Json.bool false), ("error", Json.obj fs)])]) ∧
    (e.Code = ErrCodeNotFound →
      (WriteErrorResponse w e).status = some 404) ∧
    (e.Details = some Payload.unencodable →
      (WriteErrorResponse w e).body = w.body ++
        [Chunk.text ("Internal server error" ++ "\n")]) := by
  refine ⟨write_error_contentType w e hc, write_error_status w e hc, ?_, ?_, ?_⟩
  · intro hd
    cases hdet : e.Details with
    | none =>
        refine ⟨errorFields e none, by rw [encodeAppError, hdet], ?_, ?_⟩
        · exact jlookup_errorFields_code e none
        · apply write_error_body_ok w e _ hc
          rw [encodeErrorResponse, encodeAppError, hdet]
          rfl
    | some payload =>
        cases payload with
        | unencodable => exact absurd hdet hd
        | json j =>
            refine ⟨errorFields e (some j), by rw [encodeAppError, hdet], ?_, ?_⟩
            · exact jlookup_errorFields_code e (some j)
            · apply write_error_body_ok w e _ hc
              rw [encodeErrorResponse, encodeAppError, hdet]
              rfl
  · intro hcode
    rw [write_error_status w e hc, hcode]
    rfl
  · intro hdet
    apply write_error_body_fallback w e hc
    rw [encodeErrorResponse, encodeAppError, hdet]
    rfl

/-- C3 amended witness: a successfully serialized not-found record on a
fresh sink commits 404 with the JSON content type and a NOT_FOUND
envelope. -/
theorem C3_write_error_amended_witness :
    Resp.new.committed = none ∧
    (WriteErrorResponse Resp.new
        ⟨ErrCodeNotFound, "Resource not found", 0, "", [], none, "", "",
         "", "", "", ""⟩).contentType = some "application/json" ∧
    (WriteErrorResponse Resp.new
        ⟨ErrCodeNotFound, "Resource not found", 0, "", [], none, "", "",
         "", "", "", ""⟩).status = some 404 ∧
    (∃ fs : List (String × Json),
      encodeAppError
          ⟨ErrCodeNotFound, "Resource not found", 0, "", [], none, "", "",
           "", "", "", ""⟩ = some (Json.obj fs) ∧
      jlookup fs "code" = some (Json.str ErrCodeNotFound) ∧
      (WriteErrorResponse Resp.new
          ⟨ErrCodeNotFound, "Resource not found", 0, "", [], none, "", "",
           "", "", "", ""⟩).body =
        Resp.new.body ++
          [Chunk.json (Json.obj
            [("success", Json.bool false), ("error", Json.obj fs)])]) := by
  have h := C3_write_error_amended Resp.new
    ⟨ErrCodeNotFound, "Resource not found", 0, "", [], none, "", "",
     "", "", "", ""⟩ rfl
  exact ⟨rfl, h.1, h.2.2.2.1 rfl, h.2.2.1 (by simp)⟩

/-- C5: serializing an ErrorRecord to the wire format and deserializing
it back preserves kind, message, module, details and request id exactly
(for any record whose details payload the encoder accepts), and
deserializing an object whose optional fields are omitted yields empty
values for them rather than an error. -/
theorem C5_round_trip (e : AppError)
    (hd : e.Details ≠ some Payload.unencodable) :
    (∃ (j : Json) (e' : AppError),
      encodeAppError e = some j ∧ decodeAppError j = some e' ∧
      e'.Code = e.Code ∧ e'.Message = e.Message ∧ e'.Module = e.Module ∧
      e'.Details = e.Details ∧ e'.RequestID = e.RequestID) ∧
    (∀ (c m : String) (t : Int),
      decodeAppError (Json.obj
          [("code", Json.str c), ("message", Json.str m),
           ("timestamp", Json.num t)]) =
        some ⟨c, m, t, "", [], none, "", "", "", "", "", ""⟩) := by
  constructor
  · cases hdet : e.Details with
    | none =>
        refine ⟨Json.obj (errorFields e none),
          ⟨e.Code, e.Message, e.Timestamp, e.Module, e.Trace, none,
           e.RequestID, "", "", "", "", ""⟩,
          by rw [encodeAppError, hdet], ?_, rfl, rfl, rfl, rfl, rfl⟩
        by_cases hm : e.Module = "" <;> by_cases ht : e.Trace = [] <;>
          by_cases hr : e.RequestID = "" <;>
          simp [errorFields, decodeAppError, decodeField, jlookup,
            decodeString, decodeInt, decodeStrList, decodeStrings_map,
            hm, ht, hr]
    | some payload =>
        cases payload with
        | unencodable => exact absurd hdet hd
        | json dj =>
            refine ⟨Json.obj (errorFields e (some dj)),
              ⟨e.Code, e.Message, e.Timestamp, e.Module, e.Trace,
               some (Payload.json dj), e.RequestID, "", "", "", "", ""⟩,
              by rw [encodeAppError, hdet], ?_, rfl, rfl, rfl, rfl, rfl⟩
            by_cases hm : e.Module = "" <;> by_cases ht : e.Trace = [] <;>
              by_cases hr : e.RequestID = "" <;>
              simp [errorFields, decodeAppError, decodeField, jlookup,
                decodeString, decodeInt, decodeStrList, decodeStrings_map,
                hm, ht, hr]
  · intro c m t
    rfl

/-- C5 witness: a fully populated record with an encodable structured
details payload round-trips, and the minimal object decodes with empty
optional fields. -/
theorem C5_round_trip_witness :
    ((⟨ErrCodeValidation, "Invalid input", 1703123456, "user-service",
        ["a.go:1 main.main"],
        some (Payload.json (Json.obj [("field", Json.str "email")])),
        "req-123", "", "", "", "", ""⟩ : AppError).Details ≠
      some Payload.unencodable) ∧
    (∃ (j : Json) (e' : AppError),
      encodeAppError
          ⟨ErrCodeValidation, "Invalid input", 1703123456, "user-service",
           ["a.go:1 main.main"],
           some (Payload.json (Json.obj [("field", Json.str "email")])),
           "req-123", "", "", "", "", ""⟩ = some j ∧
      decodeAppError j = some e' ∧
      e'.Code = ErrCodeValidation ∧ e'.Message = "Invalid input" ∧
      e'.Module = "user-service" ∧
      e'.Details =
        some (Payload.json (Json.obj [("field", Json.str "email")])) ∧
      e'.RequestID = "req-123") ∧
    decodeAppError (Json.obj
        [("code", Json.str "NOT_FOUND"), ("message", Json.str "gone"),
         ("timestamp", Json.num 7)]) =
      some ⟨"NOT_FOUND", "gone", 7, "", [], none, "", "", "", "", "", ""⟩ := by
  have h := C5_round_trip
    ⟨ErrCodeValidation, "Invalid input", 1703123456, "user-service",
     ["a.go:1 main.main"],
     some (Payload.json (Json.obj [("field", Json.str "email")])),
     "req-123", "", "", "", "", ""⟩ (by simp)
  exact ⟨by simp, h.1, h.2 "NOT_FOUND" "gone" 7⟩

/-- C10: WriteSuccessResponse always commits content type
application/json and status 200 on a fresh sink, and when the payload is
nil the serialized success envelope omits the data field entirely (the
body object has only the success member), because the data field carries
omitempty; with a non-nil encodable payload the data field is present. -/
theorem C10_success_omits_empty_data
    (w : Resp) (data : Option Payload) (hc : w.committed = none) :
    (WriteSuccessResponse w data).status = some 200 ∧
    (WriteSuccessResponse w data).contentType = some "application/json" ∧
    (data = none →
      (WriteSuccessResponse w data).body =
        w.body ++ [Chunk.json (Json.obj [("success", Json.bool true)])] ∧
      jlookup [("success", Json.bool true)] "data" = none) ∧
    (∀ j : Json, data = some (Payload.json j) →
      (WriteSuccessResponse w data).body =
        w.body ++ [Chunk.json (Json.obj
          [("success", Json.bool true), ("data", j)])]) := by
  refine ⟨?_, ?_, ?_, ?_⟩
  · simp only [WriteSuccessResponse]
    split <;>
      simp [Resp.status, Resp.write, Resp.writeHeader, Resp.setHeader, hc]
  · simp only [WriteSuccessResponse]
    split <;>
      simp [Resp.contentType, Resp.write, Resp.writeHeader, Resp.setHeader,
        hc, hlookup, List.find?]
  · intro hdata
    subst hdata
    refine ⟨?_, rfl⟩
    simp [WriteSuccessResponse, encodeSuccessResponse, Resp.write,
      Resp.writeHeader, Resp.setHeader, hc]
  · intro j hdata
    subst hdata
    simp [WriteSuccessResponse, encodeSuccessResponse, Resp.write,
      Resp.writeHeader, Resp.setHeader, hc]

/-- C10 witness: on a fresh sink, a nil payload yields status 200, the
JSON content type, and the success-only envelope body; a concrete
non-nil payload yields the data member. -/
theorem C10_success_omits_empty_data_witness :
    Resp.new.committed = none ∧
    (WriteSuccessResponse Resp.new none).status = some 200 ∧
    (WriteSuccessResponse Resp.new none).contentType =
      some "application/json" ∧
    (WriteSuccessResponse Resp.new none).body =
      Resp.new.body ++ [Chunk.json (Json.obj [("success", Json.bool true)])] ∧
    jlookup [("success", Json.bool true)] "data" = none ∧
    (WriteSuccessResponse Resp.new
        (some (Payload.json (Json.num 5)))).body =
      Resp.new.body ++ [Chunk.json (Json.obj
        [("success", Json.bool true), ("data", Json.num 5)])] := by
  have h := C10_success_omits_empty_data Resp.new none rfl
  have h2 := C10_success_omits_empty_data Resp.new
    (some (Payload.json (Json.num 5))) rfl
  exact ⟨rfl, h.1, h.2.1, (h.2.2.1 rfl).1, (h.2.2.1 rfl).2,
    h2.2.2.2 (Json.num 5) rfl⟩

end BLerrors
